import Mathlib

/-!
Verification development for the finance-tracker backend's schedule
generation and amortization/reconciliation engine.

Shallow embedding conventions:
* JS numbers holding currency amounts are embedded as rationals.
* The JS expression Math.round(x * 100) / 100 (and Number(x.toFixed(2))
  on non-negative values) is embedded as round2.
* Calendar dates are embedded as an abstract integer timeline; the JS
  dueDate.setMonth(dueDate.getMonth() + m) calendar arithmetic is
  abstracted to addMonths, which adds the month count. No claim in this
  development depends on the specific calendar day policy, only on the
  order of dates and on two generators using the same date function.
* The implicit global clock read new Date() inside
  Investment.updatePaymentStatus is embedded as an explicit now
  parameter of updatePaymentStatus.
-/

namespace FinanceTracker

/-- JS Math.round(x * 100) / 100: round to 2 decimals, half toward +infinity. -/
def round2 (x : ℚ) : ℚ := (⌊x * 100 + 1 / 2⌋ : ℚ) / 100

/-- Abstract calendar: startDate advanced by m months (see module docstring). -/
def addMonths (d : ℤ) (m : ℕ) : ℤ := d + m

/-- Plan.interestType enum: 'flat' | 'reducing'. -/
inductive InterestType
  | flat
  | reducing
deriving DecidableEq, Repr

/-- interestPayment.principalRepaymentOption enum: 'fixed' | 'flexible'. -/
inductive RepaymentOption
  | fixed
  | flexible
deriving DecidableEq, Repr

/-- Payout frequency enum: 'monthly' | 'quarterly' | 'half-yearly' | 'yearly' | 'others'. -/
inductive Frequency
  | monthly
  | quarterly
  | halfYearly
  | yearly
  | others
deriving DecidableEq, Repr

/-- Plan.paymentType enum: 'interest' | 'interestWithPrincipal'. -/
inductive PaymentType
  | interest
  | interestWithPrincipal
deriving DecidableEq, Repr

/-- The interestPayment sub-document of Plan (fields the engine reads;
identity/date fields not used by any calculation are omitted). -/
structure InterestPaymentConfig where
  principalRepaymentOption : RepaymentOption
  withdrawalAfterPercentage : ℚ
  principalSettlementTerm : ℕ
deriving DecidableEq, Repr

/-- The interestWithPrincipalPayment sub-document of Plan (fields the engine reads). -/
structure InterestWithPrincipalConfig where
  principalRepaymentPercentage : ℚ
  paymentFrequency : Frequency
deriving DecidableEq, Repr

/-- Plan (src/models/Plan.js): the fields read by calculateExpectedReturns and
generateSchedule. Identity, min/max investment and statistics fields are not
read by the calculation methods and are omitted. -/
structure Plan where
  interestRate : ℚ
  interestType : InterestType
  tenure : ℕ
  paymentType : PaymentType
  interestPayment : InterestPaymentConfig
  interestWithPrincipalPayment : InterestWithPrincipalConfig
deriving DecidableEq, Repr

/-- Schema validity of the plan fields used by the engine (mongoose validators:
rate in [0,100], 1 <= tenure <= 240, withdrawal percentage in [0,100],
settlement term >= 1, repayment percentage in [0,100]). -/
def ValidPlan (p : Plan) : Prop :=
  0 ≤ p.interestRate ∧ p.interestRate ≤ 100 ∧
  1 ≤ p.tenure ∧ p.tenure ≤ 240 ∧
  0 ≤ p.interestPayment.withdrawalAfterPercentage ∧
  p.interestPayment.withdrawalAfterPercentage ≤ 100 ∧
  1 ≤ p.interestPayment.principalSettlementTerm ∧
  0 ≤ p.interestWithPrincipalPayment.principalRepaymentPercentage ∧
  p.interestWithPrincipalPayment.principalRepaymentPercentage ≤ 100

/-- ScheduleItem status enum: 'pending' | 'paid' | 'overdue' | 'partial'.
The source's 'partial' value is named partialPaid here. -/
inductive ItemStatus
  | pending
  | paid
  | overdue
  | partialPaid
deriving DecidableEq, Repr

/-- One row of the payment schedule (the scheduleSchema sub-document). -/
structure ScheduleItem where
  month : ℕ
  dueDate : ℤ
  interestAmount : ℚ
  principalAmount : ℚ
  totalAmount : ℚ
  remainingPrincipal : ℚ
  status : ItemStatus
  paidAmount : ℚ
  paidDate : Option ℤ
deriving DecidableEq, Repr

/-- The result record of Plan.calculateExpectedReturns. -/
structure ExpectedReturns where
  totalInterest : ℚ
  totalReturns : ℚ
  effectiveRate : ℚ
  paymentType : PaymentType
deriving DecidableEq, Repr

/-- Payout frequency in months (the switch in Plan.js: quarterly 3,
half-yearly 6, yearly 12, monthly and 'others' fall to 1). -/
def frequencyMonths : Frequency → ℕ
  | Frequency.quarterly => 3
  | Frequency.halfYearly => 6
  | Frequency.yearly => 12
  | Frequency.monthly => 1
  | Frequency.others => 1

/-- Loop body of Plan.generateInterestSchedule (src/models/Plan.js lines
372-415) for one month, returning the emitted item and the new
remainingPrincipal. NOTE a faithfully preserved source quirk: the loop body
declares a local variable also called principalAmount, initialized to 0, which
shadows the function's principalAmount parameter; the flat-interest branch and
the flexible-mode monthlyPrincipal computation read this local (still 0 at
that point), embedded here as localPrincipal. -/
def planInterestItem (p : Plan) (startDate : ℤ) (monthlyRate : ℚ) (month : ℕ)
    (remaining : ℚ) : ScheduleItem × ℚ :=
  let localPrincipal : ℚ := 0
  let interestAmount :=
    if p.interestType = InterestType.flat then localPrincipal * monthlyRate
    else remaining * monthlyRate
  let pr : ℚ × ℚ :=
    if p.interestPayment.principalRepaymentOption = RepaymentOption.fixed ∧
        month = p.tenure then
      (remaining, 0)
    else if p.interestPayment.principalRepaymentOption = RepaymentOption.flexible then
      let settlementStartMonth : ℤ :=
        ⌈(p.tenure : ℚ) * p.interestPayment.withdrawalAfterPercentage / 100⌉
      if settlementStartMonth ≤ (month : ℤ) then
        let monthlyPrincipal := localPrincipal / (p.interestPayment.principalSettlementTerm : ℚ)
        let pa := min monthlyPrincipal remaining
        (pa, remaining - pa)
      else (0, remaining)
    else (0, remaining)
  ({ month := month
     dueDate := addMonths startDate month
     interestAmount := round2 interestAmount
     principalAmount := round2 pr.1
     totalAmount := round2 (interestAmount + pr.1)
     remainingPrincipal := round2 pr.2
     status := ItemStatus.pending
     paidAmount := 0
     paidDate := none }, pr.2)

/-- The month loop of Plan.generateInterestSchedule: fuel counts the months
still to emit, month is the current 1-based month index. -/
def planInterestGo (p : Plan) (startDate : ℤ) (monthlyRate : ℚ) :
    ℕ → ℕ → ℚ → List ScheduleItem
  | 0, _, _ => []
  | fuel + 1, month, remaining =>
    let step := planInterestItem p startDate monthlyRate month remaining
    step.1 :: planInterestGo p startDate monthlyRate fuel (month + 1) step.2

/-- Plan.generateInterestSchedule (src/models/Plan.js lines 364-418). -/
def Plan.generateInterestSchedule (p : Plan) (principalAmount : ℚ)
    (startDate : ℤ) (monthlyRate : ℚ) : List ScheduleItem :=
  planInterestGo p startDate monthlyRate p.tenure 1 principalAmount

/-- Loop body of Plan.generateInterestWithPrincipalSchedule (lines 451-482);
the same shadowed-local quirk applies to the flat-interest branch. -/
def planIWPItem (p : Plan) (startDate : ℤ) (monthlyRate : ℚ)
    (principalPerPayment : ℚ) (freqMonths : ℕ) (month : ℕ)
    (remaining : ℚ) : ScheduleItem × ℚ :=
  let localPrincipal : ℚ := 0
  let interestAmount :=
    if p.interestType = InterestType.flat then localPrincipal * monthlyRate
    else remaining * monthlyRate
  let pr : ℚ × ℚ :=
    if month % freqMonths = 0 ∨ month = p.tenure then
      let pa := min principalPerPayment remaining
      (pa, remaining - pa)
    else (0, remaining)
  ({ month := month
     dueDate := addMonths startDate month
     interestAmount := round2 interestAmount
     principalAmount := round2 pr.1
     totalAmount := round2 (interestAmount + pr.1)
     remainingPrincipal := round2 pr.2
     status := ItemStatus.pending
     paidAmount := 0
     paidDate := none }, pr.2)

/-- The month loop of Plan.generateInterestWithPrincipalSchedule. -/
def planIWPGo (p : Plan) (startDate : ℤ) (monthlyRate : ℚ)
    (principalPerPayment : ℚ) (freqMonths : ℕ) :
    ℕ → ℕ → ℚ → List ScheduleItem
  | 0, _, _ => []
  | fuel + 1, month, remaining =>
    let step := planIWPItem p startDate monthlyRate principalPerPayment freqMonths month remaining
    step.1 :: planIWPGo p startDate monthlyRate principalPerPayment freqMonths fuel (month + 1) step.2

/-- Plan.generateInterestWithPrincipalSchedule (src/models/Plan.js lines 420-485). -/
def Plan.generateInterestWithPrincipalSchedule (p : Plan) (principalAmount : ℚ)
    (startDate : ℤ) (monthlyRate : ℚ) : List ScheduleItem :=
  let principalPercentage := p.interestWithPrincipalPayment.principalRepaymentPercentage / 100
  let freqMonths := frequencyMonths p.interestWithPrincipalPayment.paymentFrequency
  let totalPaymentPeriods : ℤ := ⌈(p.tenure : ℚ) / (freqMonths : ℚ)⌉
  let principalPerPayment := principalAmount * principalPercentage / (totalPaymentPeriods : ℚ)
  planIWPGo p startDate monthlyRate principalPerPayment freqMonths p.tenure 1 principalAmount

/-- Plan.generateSchedule (src/models/Plan.js lines 340-362). -/
def Plan.generateSchedule (p : Plan) (principalAmount : ℚ) (startDate : ℤ) :
    List ScheduleItem :=
  let monthlyRate := p.interestRate / 100
  if p.paymentType = PaymentType.interest then
    p.generateInterestSchedule principalAmount startDate monthlyRate
  else
    p.generateInterestWithPrincipalSchedule principalAmount startDate monthlyRate

/-- Accumulation loop of the reducing/flexible branch of
Plan.calculateInterestOnlyReturns (lines 262-269). -/
def interestOnlyReturnsGo (monthlyRate monthlyPrincipalRepayment : ℚ)
    (settlementStartMonth : ℤ) : ℕ → ℕ → ℚ → ℚ → ℚ
  | 0, _, _, acc => acc
  | fuel + 1, month, remaining, acc =>
    let acc1 := acc + remaining * monthlyRate
    let remaining1 :=
      if settlementStartMonth ≤ (month : ℤ) then
        max 0 (remaining - monthlyPrincipalRepayment)
      else remaining
    interestOnlyReturnsGo monthlyRate monthlyPrincipalRepayment settlementStartMonth
      fuel (month + 1) remaining1 acc1

/-- Plan.calculateInterestOnlyReturns (src/models/Plan.js lines 237-280). -/
def Plan.calculateInterestOnlyReturns (p : Plan) (principalAmount : ℚ)
    (monthlyRate : ℚ) : ExpectedReturns :=
  let totalInterest :=
    if p.interestType = InterestType.flat ∨
        p.interestPayment.principalRepaymentOption = RepaymentOption.fixed then
      principalAmount * monthlyRate * (p.tenure : ℚ)
    else
      let settlementStartMonth : ℤ :=
        ⌈(p.tenure : ℚ) * p.interestPayment.withdrawalAfterPercentage / 100⌉
      let monthlyPrincipalRepayment :=
        principalAmount / (p.interestPayment.principalSettlementTerm : ℚ)
      interestOnlyReturnsGo monthlyRate monthlyPrincipalRepayment settlementStartMonth
        p.tenure 1 principalAmount 0
  { totalInterest := round2 totalInterest
    totalReturns := round2 (principalAmount + totalInterest)
    effectiveRate := round2 (totalInterest / principalAmount * 100)
    paymentType := PaymentType.interest }

/-- Accumulation loop of Plan.calculateInterestWithPrincipalReturns
(lines 317-327); note no final-month principal event here, unlike the
schedule generator. -/
def iwpReturnsGo (flat : Bool) (principalAmount monthlyRate principalPerPayment : ℚ)
    (freqMonths : ℕ) : ℕ → ℕ → ℚ → ℚ → ℚ
  | 0, _, _, acc => acc
  | fuel + 1, month, remaining, acc =>
    let interestBase := if flat then principalAmount else remaining
    let acc1 := acc + interestBase * monthlyRate
    let remaining1 :=
      if month % freqMonths = 0 then max 0 (remaining - principalPerPayment)
      else remaining
    iwpReturnsGo flat principalAmount monthlyRate principalPerPayment freqMonths
      fuel (month + 1) remaining1 acc1

/-- Plan.calculateInterestWithPrincipalReturns (src/models/Plan.js lines 283-337). -/
def Plan.calculateInterestWithPrincipalReturns (p : Plan) (principalAmount : ℚ)
    (monthlyRate : ℚ) : ExpectedReturns :=
  let principalPercentage := p.interestWithPrincipalPayment.principalRepaymentPercentage / 100
  let freqMonths := frequencyMonths p.interestWithPrincipalPayment.paymentFrequency
  let totalPaymentPeriods : ℤ := ⌈(p.tenure : ℚ) / (freqMonths : ℚ)⌉
  let principalPerPayment :=
    if 0 < totalPaymentPeriods then
      principalAmount * principalPercentage / (totalPaymentPeriods : ℚ)
    else 0
  let totalInterest :=
    iwpReturnsGo (p.interestType = InterestType.flat) principalAmount monthlyRate
      principalPerPayment freqMonths p.tenure 1 principalAmount 0
  { totalInterest := round2 totalInterest
    totalReturns := round2 (principalAmount + totalInterest)
    effectiveRate := round2 (totalInterest / principalAmount * 100)
    paymentType := PaymentType.interestWithPrincipal }

/-- Plan.calculateExpectedReturns (src/models/Plan.js lines 222-234). -/
def Plan.calculateExpectedReturns (p : Plan) (principalAmount : ℚ) : ExpectedReturns :=
  let monthlyRate := p.interestRate / 100
  if p.paymentType = PaymentType.interest then
    p.calculateInterestOnlyReturns principalAmount monthlyRate
  else
    p.calculateInterestWithPrincipalReturns principalAmount monthlyRate

/-- Investment.status enum: 'active' | 'completed' | 'closed' | 'defaulted'. -/
inductive InvStatus
  | active
  | completed
  | closed
  | defaulted
deriving DecidableEq, Repr

/-- Investment (src/unnamed/part_005, investmentSchema): the snapshot of plan
fields, the calculated aggregate fields, the embedded schedule, and status.
Identity references, documents, notes, risk assessment and the append-only
timeline log are not read by any calculation and are omitted. -/
structure Investment where
  principalAmount : ℚ
  investmentDate : ℤ
  maturityDate : ℤ
  status : InvStatus
  interestRate : ℚ
  interestType : InterestType
  tenure : ℕ
  paymentType : PaymentType
  totalExpectedReturns : ℚ
  totalInterestExpected : ℚ
  totalPaidAmount : ℚ
  totalInterestPaid : ℚ
  totalPrincipalPaid : ℚ
  remainingAmount : ℚ
  schedule : List ScheduleItem
deriving DecidableEq, Repr

/-- Loop body of Investment.generateInterestSchedule (part_005 lines 683-714):
interest on this.principalAmount (flat) or remainingPrincipal (reducing);
principal always repaid in full at month == tenure, with no reference to the
plan's repayment option. -/
def invInterestItem (principalAmount : ℚ) (startDate : ℤ) (monthlyRate : ℚ)
    (interestType : InterestType) (tenure : ℕ) (month : ℕ)
    (remaining : ℚ) : ScheduleItem × ℚ :=
  let interestAmount :=
    if interestType = InterestType.flat then principalAmount * monthlyRate
    else remaining * monthlyRate
  let pr : ℚ × ℚ := if month = tenure then (remaining, 0) else (0, remaining)
  ({ month := month
     dueDate := addMonths startDate month
     interestAmount := round2 interestAmount
     principalAmount := round2 pr.1
     totalAmount := round2 (interestAmount + pr.1)
     remainingPrincipal := round2 pr.2
     status := ItemStatus.pending
     paidAmount := 0
     paidDate := none }, pr.2)

/-- The month loop of Investment.generateInterestSchedule. -/
def invInterestGo (principalAmount : ℚ) (startDate : ℤ) (monthlyRate : ℚ)
    (interestType : InterestType) (tenure : ℕ) :
    ℕ → ℕ → ℚ → List ScheduleItem
  | 0, _, _ => []
  | fuel + 1, month, remaining =>
    let step := invInterestItem principalAmount startDate monthlyRate interestType tenure month remaining
    step.1 :: invInterestGo principalAmount startDate monthlyRate interestType tenure fuel (month + 1) step.2

/-- Loop body of Investment.generateInterestWithPrincipalSchedule (part_005
lines 727-753): equal principal of this.principalAmount / this.tenure every
month, with no reference to the plan's repayment percentage or frequency. -/
def invIWPItem (principalAmount : ℚ) (startDate : ℤ) (monthlyRate : ℚ)
    (interestType : InterestType) (monthlyPrincipal : ℚ) (month : ℕ)
    (remaining : ℚ) : ScheduleItem × ℚ :=
  let interestAmount :=
    if interestType = InterestType.flat then principalAmount * monthlyRate
    else remaining * monthlyRate
  let remaining1 := remaining - monthlyPrincipal
  ({ month := month
     dueDate := addMonths startDate month
     interestAmount := round2 interestAmount
     principalAmount := round2 monthlyPrincipal
     totalAmount := round2 (interestAmount + monthlyPrincipal)
     remainingPrincipal := round2 (max 0 remaining1)
     status := ItemStatus.pending
     paidAmount := 0
     paidDate := none }, remaining1)

/-- The month loop of Investment.generateInterestWithPrincipalSchedule. -/
def invIWPGo (principalAmount : ℚ) (startDate : ℤ) (monthlyRate : ℚ)
    (interestType : InterestType) (monthlyPrincipal : ℚ) :
    ℕ → ℕ → ℚ → List ScheduleItem
  | 0, _, _ => []
  | fuel + 1, month, remaining =>
    let step := invIWPItem principalAmount startDate monthlyRate interestType monthlyPrincipal month remaining
    step.1 :: invIWPGo principalAmount startDate monthlyRate interestType monthlyPrincipal fuel (month + 1) step.2

/-- Investment.generateSchedule as a function of the exact fields the method
reads: this.principalAmount, this.investmentDate, this.interestRate,
this.interestType, this.tenure, this.paymentType (part_005 lines 665-756). -/
def invScheduleOfFields (principalAmount : ℚ) (investmentDate : ℤ)
    (interestRate : ℚ) (interestType : InterestType) (tenure : ℕ)
    (paymentType : PaymentType) : List ScheduleItem :=
  let monthlyRate := interestRate / 100
  if paymentType = PaymentType.interest then
    invInterestGo principalAmount investmentDate monthlyRate interestType tenure tenure 1 principalAmount
  else
    invIWPGo principalAmount investmentDate monthlyRate interestType
      (principalAmount / (tenure : ℚ)) tenure 1 principalAmount

/-- Investment.generateSchedule (part_005 lines 665-676). -/
def Investment.generateSchedule (inv : Investment) : List ScheduleItem :=
  invScheduleOfFields inv.principalAmount inv.investmentDate inv.interestRate
    inv.interestType inv.tenure inv.paymentType

/-- The POST /api/investments handler (src/routes/investments.js lines
244-274): snapshot the plan fields, compute expected returns with the plan's
method, and persist the schedule generated by the Investment model's own
generator. -/
def createInvestment (plan : Plan) (principalAmount : ℚ) (invDate : ℤ) : Investment :=
  let returns := plan.calculateExpectedReturns principalAmount
  let inv0 : Investment :=
    { principalAmount := principalAmount
      investmentDate := invDate
      maturityDate := addMonths invDate plan.tenure
      status := InvStatus.active
      interestRate := plan.interestRate
      interestType := plan.interestType
      tenure := plan.tenure
      paymentType := plan.paymentType
      totalExpectedReturns := returns.totalReturns
      totalInterestExpected := returns.totalInterest
      totalPaidAmount := 0
      totalInterestPaid := 0
      totalPrincipalPaid := 0
      remainingAmount := returns.totalReturns
      schedule := [] }
  { inv0 with schedule := inv0.generateSchedule }

/-- Contribution of one schedule item to totalPaidAmount inside
Investment.updatePaymentStatus: only items in status 'paid' or 'partial'
are accumulated (part_005 lines 810-818). -/
def itemPaidContribution (it : ScheduleItem) : ℚ :=
  if it.status = ItemStatus.paid ∨ it.status = ItemStatus.partialPaid then it.paidAmount else 0

/-- Contribution of one schedule item to totalInterestPaid. -/
def itemInterestPaidContribution (it : ScheduleItem) : ℚ :=
  if it.status = ItemStatus.paid ∨ it.status = ItemStatus.partialPaid then
    min it.paidAmount it.interestAmount
  else 0

/-- Contribution of one schedule item to totalPrincipalPaid. -/
def itemPrincipalPaidContribution (it : ScheduleItem) : ℚ :=
  if it.status = ItemStatus.paid ∨ it.status = ItemStatus.partialPaid then
    max 0 (it.paidAmount - it.interestAmount)
  else 0

/-- The overdue transition inside Investment.updatePaymentStatus (part_005
lines 821-824): a pending item strictly past its due date becomes overdue. -/
def markOverdue (now : ℤ) (it : ScheduleItem) : ScheduleItem :=
  if it.status = ItemStatus.pending ∧ it.dueDate < now then
    { it with status := ItemStatus.overdue }
  else it

/-- Investment.updatePaymentStatus (part_005 lines 800-850). In the source the
clock is read via new Date() inside the method; it is embedded as the explicit
now parameter. The accumulations read each item's status before its own
overdue update, but a pending-to-overdue transition never changes any
contribution, so summing over the pre-update schedule is exact. The timeline
entries the method appends are not modelled (audit log only). -/
def updatePaymentStatus (now : ℤ) (inv : Investment) : Investment :=
  let totalPaid := (inv.schedule.map itemPaidContribution).sum
  let interestPaid := (inv.schedule.map itemInterestPaidContribution).sum
  let principalPaid := (inv.schedule.map itemPrincipalPaidContribution).sum
  let newSchedule := inv.schedule.map (markOverdue now)
  let remaining := inv.totalExpectedReturns - totalPaid
  let newStatus := if remaining ≤ 0 then InvStatus.completed else inv.status
  { inv with
    schedule := newSchedule
    totalPaidAmount := totalPaid
    totalInterestPaid := interestPaid
    totalPrincipalPaid := principalPaid
    remainingAmount := remaining
    status := newStatus }

/-- A POST /api/payments request body (src/unnamed/part_001 lines 152-166):
the four breakdown components are optional; absent components are read as 0. -/
structure PaymentRequest where
  scheduleMonth : ℕ
  amount : ℚ
  interestAmount : Option ℚ
  principalAmount : Option ℚ
  penaltyAmount : Option ℚ
  bonusAmount : Option ℚ
deriving DecidableEq, Repr

/-- A payment breakdown into interest/principal/penalty/bonus. -/
structure Breakdown where
  interest : ℚ
  principal : ℚ
  penalty : ℚ
  bonus : ℚ
deriving DecidableEq, Repr

/-- Rejection reasons of the POST /api/payments handler that concern the
reconciliation engine. -/
inductive PaymentError
  | investmentNotActive
  | scheduleMonthNotFound
  | statusNotAllowed
  | breakdownMismatch
deriving DecidableEq, Repr

/-- JS falsiness of an optional numeric request field: absent (undefined) or
equal to 0. The handler's auto-derive test !interestAmount &&
!principalAmount && !penaltyAmount && !bonusAmount (part_001 line 242) uses
this notion, so an explicitly supplied all-zero breakdown is
indistinguishable from an absent one. -/
def jsFalsy (o : Option ℚ) : Bool := o.getD 0 = 0

/-- The breakdown actually supplied by the request, absent components read
as 0 (parseFloat(x) || 0, part_001 lines 236-239). -/
def requestedBreakdown (req : PaymentRequest) : Breakdown :=
  { interest := req.interestAmount.getD 0
    principal := req.principalAmount.getD 0
    penalty := req.penaltyAmount.getD 0
    bonus := req.bonusAmount.getD 0 }

/-- Auto-derivation of the breakdown when none is supplied (part_001 lines
242-248): pay remaining interest on the item first, the rest to principal. -/
def deriveBreakdown (item : ScheduleItem) (amount : ℚ) : Breakdown :=
  let remainingInterest := max 0 (item.interestAmount - min item.paidAmount item.interestAmount)
  let fi := min amount remainingInterest
  { interest := fi, principal := max 0 (amount - fi), penalty := 0, bonus := 0 }

/-- Breakdown-total validation (part_001 lines 251-270): within 0.01 keep the
breakdown; a gap below 1 unit is absorbed into the interest component;
otherwise reject. -/
def validateBreakdown (amount : ℚ) (b : Breakdown) : Except PaymentError Breakdown :=
  let totalBreakdown := b.interest + b.principal + b.penalty + b.bonus
  if 1 / 100 < |amount - totalBreakdown| then
    if |amount - totalBreakdown| < 1 then
      Except.ok { b with interest := b.interest + (amount - totalBreakdown) }
    else Except.error PaymentError.breakdownMismatch
  else Except.ok b

/-- The schedule-item mutation of the handler (part_001 lines 311-320):
accumulate paidAmount, then set status to paid when paidAmount covers
totalAmount, else to partial when paidAmount is positive. -/
def payScheduleItem (paymentDate : ℤ) (amount : ℚ) (it : ScheduleItem) : ScheduleItem :=
  let paid := it.paidAmount + amount
  if it.totalAmount ≤ paid then
    { it with paidAmount := paid, status := ItemStatus.paid, paidDate := some paymentDate }
  else if 0 < paid then
    { it with paidAmount := paid, status := ItemStatus.partialPaid }
  else
    { it with paidAmount := paid }

/-- Replace the first element satisfying the predicate (the handler mutates
the single item located with schedule.find). -/
def updateFirst (pred : ScheduleItem → Bool) (f : ScheduleItem → ScheduleItem) :
    List ScheduleItem → List ScheduleItem
  | [] => []
  | x :: xs => if pred x then f x :: xs else x :: updateFirst pred f xs

/-- The statuses the handler accepts payments against (part_001 line 226). -/
def allowedStatuses : List ItemStatus :=
  [ItemStatus.pending, ItemStatus.overdue, ItemStatus.partialPaid, ItemStatus.paid]

/-- The reconciliation core of the POST /api/payments handler (part_001 lines
197-323): guard on investment status, locate the schedule item by month,
resolve and validate the breakdown, mutate the item, then recompute the
investment aggregates via updatePaymentStatus. now stands for both the
payment date and the clock the status refresh reads. Returns the updated
investment and the final breakdown recorded on the Payment. -/
def applyPayment (now : ℤ) (inv : Investment) (req : PaymentRequest) :
    Except PaymentError (Investment × Breakdown) :=
  if inv.status ≠ InvStatus.active then Except.error PaymentError.investmentNotActive
  else
    match inv.schedule.find? (fun s => decide (s.month = req.scheduleMonth)) with
    | none => Except.error PaymentError.scheduleMonthNotFound
    | some scheduleItem =>
      if scheduleItem.status ∉ allowedStatuses then Except.error PaymentError.statusNotAllowed
      else
        let base :=
          if jsFalsy req.interestAmount ∧ jsFalsy req.principalAmount ∧
              jsFalsy req.penaltyAmount ∧ jsFalsy req.bonusAmount then
            deriveBreakdown scheduleItem req.amount
          else requestedBreakdown req
        match validateBreakdown req.amount base with
        | Except.error e => Except.error e
        | Except.ok finalBreakdown =>
          let newSchedule :=
            updateFirst (fun s => decide (s.month = req.scheduleMonth))
              (payScheduleItem now req.amount) inv.schedule
          Except.ok (updatePaymentStatus now { inv with schedule := newSchedule }, finalBreakdown)

/-- The total of a breakdown's four components. -/
def breakdownTotal (b : Breakdown) : ℚ :=
  b.interest + b.principal + b.penalty + b.bonus

/-- The investment state a successful payment application produces: the
located item is paid, then the aggregates are refreshed. -/
def paymentSuccessorState (now : ℤ) (inv : Investment) (req : PaymentRequest) : Investment :=
  updatePaymentStatus now
    { inv with
      schedule :=
        updateFirst (fun s => decide (s.month = req.scheduleMonth))
          (payScheduleItem now req.amount) inv.schedule }

/-- Well-formedness of one schedule item as established by the system itself:
the schema forbids negative paidAmount and interestAmount, and an item only
ever accumulates paidAmount through the payment handler, which immediately
moves it to status 'paid' or 'partial'; any other status therefore has
paidAmount 0. -/
def ItemOk (it : ScheduleItem) : Prop :=
  0 ≤ it.paidAmount ∧ 0 ≤ it.interestAmount ∧
  (it.status ≠ ItemStatus.paid ∧ it.status ≠ ItemStatus.partialPaid → it.paidAmount = 0)

/-- Schedule-wide well-formedness (holds for freshly generated schedules and
is preserved by payment application). -/
def scheduleInvariant (l : List ScheduleItem) : Prop := ∀ it ∈ l, ItemOk it

/-! ## Concrete inputs used as failing inputs, counterexamples and witnesses -/

/-- A flat, interest-only plan: rate 3 percent per period, tenure 12, fixed
principal repayment (the spec's section 8 flat scenario). -/
def flatInterestPlan : Plan :=
  { interestRate := 3
    interestType := InterestType.flat
    tenure := 12
    paymentType := PaymentType.interest
    interestPayment :=
      { principalRepaymentOption := RepaymentOption.fixed
        withdrawalAfterPercentage := 0
        principalSettlementTerm := 12 }
    interestWithPrincipalPayment :=
      { principalRepaymentPercentage := 100
        paymentFrequency := Frequency.monthly } }

/-- A reducing interest-with-principal plan that repays only 50 percent of the
principal: rate 2, tenure 2, monthly frequency. -/
def halfRepaymentPlan : Plan :=
  { interestRate := 2
    interestType := InterestType.reducing
    tenure := 2
    paymentType := PaymentType.interestWithPrincipal
    interestPayment :=
      { principalRepaymentOption := RepaymentOption.fixed
        withdrawalAfterPercentage := 0
        principalSettlementTerm := 1 }
    interestWithPrincipalPayment :=
      { principalRepaymentPercentage := 50
        paymentFrequency := Frequency.monthly } }

/-- A pending schedule item with interest due 4500 and principal 500. -/
def exItem : ScheduleItem :=
  { month := 1
    dueDate := 10
    interestAmount := 4500
    principalAmount := 500
    totalAmount := 5000
    remainingPrincipal := 0
    status := ItemStatus.pending
    paidAmount := 0
    paidDate := none }

/-- An active investment holding exItem as its only schedule row. -/
def exInvestment : Investment :=
  { principalAmount := 100000
    investmentDate := 0
    maturityDate := 12
    status := InvStatus.active
    interestRate := 3
    interestType := InterestType.flat
    tenure := 12
    paymentType := PaymentType.interest
    totalExpectedReturns := 136000
    totalInterestExpected := 36000
    totalPaidAmount := 0
    totalInterestPaid := 0
    totalPrincipalPaid := 0
    remainingAmount := 136000
    schedule := [exItem] }

/-- A payment of 5000 against month 1 with no supplied breakdown. -/
def exRequest : PaymentRequest :=
  { scheduleMonth := 1
    amount := 5000
    interestAmount := none
    principalAmount := none
    penaltyAmount := none
    bonusAmount := none }

/-- A payment of 5000 against month 1 whose supplied breakdown components are
all explicitly 0 (summing to 5000 less than the amount). -/
def zeroBreakdownRequest : PaymentRequest :=
  { scheduleMonth := 1
    amount := 5000
    interestAmount := some 0
    principalAmount := some 0
    penaltyAmount := some 0
    bonusAmount := some 0 }

/-- A payment of 5000 against month 1 with the exact supplied breakdown
interest 4500 and principal 500. -/
def exactBreakdownRequest : PaymentRequest :=
  { scheduleMonth := 1
    amount := 5000
    interestAmount := some 4500
    principalAmount := some 500
    penaltyAmount := some 0
    bonusAmount := some 0 }

/-- exItem after the 5000 payment: fully paid at date 20. -/
def exPaidItem : ScheduleItem :=
  { month := 1
    dueDate := 10
    interestAmount := 4500
    principalAmount := 500
    totalAmount := 5000
    remainingPrincipal := 0
    status := ItemStatus.paid
    paidAmount := 5000
    paidDate := some 20 }

/-- exInvestment after the 5000 payment is applied and aggregates refreshed. -/
def exResultInvestment : Investment :=
  { exInvestment with
    schedule := [exPaidItem]
    totalPaidAmount := 5000
    totalInterestPaid := 4500
    totalPrincipalPaid := 500
    remainingAmount := 131000 }

/-- flatInterestPlan with a completely different interest-payment
sub-configuration (flexible mode, 50 percent withdrawal threshold, settlement
term 6) but identical snapshot fields. -/
def flatInterestPlanAlt : Plan :=
  { flatInterestPlan with
    interestPayment :=
      { principalRepaymentOption := RepaymentOption.flexible
        withdrawalAfterPercentage := 50
        principalSettlementTerm := 6 } }

/-! ## Basic facts about round2 -/

theorem round2_zero : round2 0 = 0 := by
  norm_num [round2]

theorem abs_round2_sub_le (x : ℚ) : |round2 x - x| ≤ 1 / 200 := by
  have h1 : ((⌊x * 100 + 1 / 2⌋ : ℤ) : ℚ) ≤ x * 100 + 1 / 2 := Int.floor_le _
  have h2 : x * 100 + 1 / 2 < (⌊x * 100 + 1 / 2⌋ : ℤ) + 1 := Int.lt_floor_add_one _
  rw [round2, abs_le]
  constructor
  · linarith
  · linarith

/-- If the tail is nonempty, getLast? skips the head. -/
theorem getLast?_cons_ne_nil {α : Type} (a : α) {l : List α} (h : l ≠ []) :
    (a :: l).getLast? = l.getLast? := by
  cases l with
  | nil => exact absurd rfl h
  | cons b t => exact List.getLast?_cons_cons

/-! ## The monthly loops: step equations, length, fixed-mode characterization -/

theorem planInterestGo_succ (p : Plan) (sd : ℤ) (rate : ℚ) (fuel month : ℕ) (r : ℚ) :
    planInterestGo p sd rate (fuel + 1) month r =
      (planInterestItem p sd rate month r).1 ::
        planInterestGo p sd rate fuel (month + 1) (planInterestItem p sd rate month r).2 := rfl

theorem planIWPGo_succ (p : Plan) (sd : ℤ) (rate ppp : ℚ) (fm fuel month : ℕ) (r : ℚ) :
    planIWPGo p sd rate ppp fm (fuel + 1) month r =
      (planIWPItem p sd rate ppp fm month r).1 ::
        planIWPGo p sd rate ppp fm fuel (month + 1) (planIWPItem p sd rate ppp fm month r).2 := rfl

theorem planInterestGo_length (p : Plan) (sd : ℤ) (rate : ℚ) :
    ∀ fuel month r, (planInterestGo p sd rate fuel month r).length = fuel := by
  intro fuel
  induction fuel with
  | zero => intro month r; rfl
  | succ n ih =>
    intro month r
    rw [planInterestGo_succ, List.length_cons, ih]

/-- In fixed repayment mode every month before the tenure emits zero
principal and leaves the remaining principal untouched; the final month pays
it out in full. -/
theorem planInterestGo_fixed (p : Plan)
    (hfix : p.interestPayment.principalRepaymentOption = RepaymentOption.fixed)
    (sd : ℤ) (rate : ℚ) :
    ∀ fuel month r, month + fuel = p.tenure + 1 → 1 ≤ fuel →
      ((planInterestGo p sd rate fuel month r).map ScheduleItem.principalAmount).sum = round2 r ∧
      ((planInterestGo p sd rate fuel month r).getLast?).map ScheduleItem.remainingPrincipal =
        some 0 := by
  intro fuel
  induction fuel with
  | zero => intro month r _ h1; exact absurd h1 (by norm_num)
  | succ n ih =>
    intro month r hclock _
    cases n with
    | zero =>
      have hm : month = p.tenure := by omega
      constructor
      · rw [planInterestGo_succ]
        simp [planInterestGo, planInterestItem, hfix, hm]
      · rw [planInterestGo_succ]
        simp [planInterestGo, planInterestItem, hfix, hm, round2_zero]
    | succ k =>
      have hm : month ≠ p.tenure := by omega
      have hstep2 : (planInterestItem p sd rate month r).2 = r := by
        simp [planInterestItem, hfix, hm]
      have hstep1 : (planInterestItem p sd rate month r).1.principalAmount = 0 := by
        simp [planInterestItem, hfix, hm, round2_zero]
      have ihr := ih (month + 1) r (by omega) (by omega)
      have hne : planInterestGo p sd rate (k + 1) (month + 1) r ≠ [] := by
        intro hcon
        have hlen := planInterestGo_length p sd rate (k + 1) (month + 1) r
        rw [hcon] at hlen
        simp at hlen
      constructor
      · rw [planInterestGo_succ, hstep2, List.map_cons, List.sum_cons, hstep1, ihr.1]
        ring
      · rw [planInterestGo_succ, hstep2, getLast?_cons_ne_nil _ hne]
        exact ihr.2

/-- C1: the claim that Plan.calculateExpectedReturns(principal).totalInterest
always equals the schedule's interest sum within 0.01 is violated by the code:
for the flat interest-only plan (rate 3, tenure 12, fixed) at principal
100000, the returns calculator yields 36000 while every generated schedule
item carries interestAmount 0, because the generator's flat branch reads the
loop-local principalAmount variable that shadows the principal parameter.
The claim itself matches the spec's stated intent, so this is a code bug. -/
theorem claim1_flat_returns_schedule_mismatch :
    (flatInterestPlan.calculateExpectedReturns 100000).totalInterest = 36000 ∧
    ((flatInterestPlan.generateSchedule 100000 0).map ScheduleItem.interestAmount).sum = 0 ∧
    ¬ |(flatInterestPlan.calculateExpectedReturns 100000).totalInterest -
        ((flatInterestPlan.generateSchedule 100000 0).map ScheduleItem.interestAmount).sum| ≤
      1 / 100 := by
  have h1 : (flatInterestPlan.calculateExpectedReturns 100000).totalInterest = 36000 := by
    norm_num [Plan.calculateExpectedReturns, Plan.calculateInterestOnlyReturns,
      flatInterestPlan, round2]
  have h2 : ((flatInterestPlan.generateSchedule 100000 0).map
      ScheduleItem.interestAmount).sum = 0 := by
    norm_num [Plan.generateSchedule, Plan.generateInterestSchedule, flatInterestPlan,
      planInterestGo, planInterestItem, round2, addMonths]
  refine ⟨h1, h2, ?_⟩
  rw [h1, h2]
  norm_num

/-- C3: evaluation of Plan.generateSchedule on the flat interest-only scenario
(rate 3, tenure 12, fixed, principal 100000). The claim (and the spec) expect
interestAmount 3000 in every period and totalAmount 103000 in period 12; the
code produces interestAmount 0 everywhere and totalAmount 100000 in period 12,
because the flat branch multiplies the shadowed, zero-initialized local
principalAmount by the rate. The claim matches the spec's explicit scenario,
so this is a code bug. -/
theorem claim3_flat_schedule_zero_interest :
    ((flatInterestPlan.generateSchedule 100000 0).map
        (fun it => (it.month, it.interestAmount, it.principalAmount, it.totalAmount))) =
      [(1, 0, 0, 0), (2, 0, 0, 0), (3, 0, 0, 0), (4, 0, 0, 0), (5, 0, 0, 0),
       (6, 0, 0, 0), (7, 0, 0, 0), (8, 0, 0, 0), (9, 0, 0, 0), (10, 0, 0, 0),
       (11, 0, 0, 0), (12, 0, 100000, 100000)] ∧
    ((flatInterestPlan.generateSchedule 100000 0).map ScheduleItem.interestAmount).sum ≠
      36000 := by
  constructor
  · norm_num [Plan.generateSchedule, Plan.generateInterestSchedule, flatInterestPlan,
      planInterestGo, planInterestItem, round2, addMonths]
  · norm_num [Plan.generateSchedule, Plan.generateInterestSchedule, flatInterestPlan,
      planInterestGo, planInterestItem, round2, addMonths]

/-- C2 cannot hold as stated: for the interest-with-principal plan with
principalRepaymentPercentage 50 (rate 2, tenure 2, monthly) at principal
100000, the generated schedule repays 25000 twice, so principalAmount sums to
50000 (off by 50000, far beyond 0.01) and the final item's remainingPrincipal
is 50000, not 0. This is the generator's intended handling of partial
repayment percentages, so the universally quantified claim is corrected
rather than a code bug. -/
theorem claim2_counterexample_partial_repayment :
    ¬ |((halfRepaymentPlan.generateSchedule 100000 0).map
          ScheduleItem.principalAmount).sum - 100000| ≤ 1 / 100 ∧
    ((halfRepaymentPlan.generateSchedule 100000 0).getLast?).map
        ScheduleItem.remainingPrincipal ≠ some 0 := by
  have h1 : ((halfRepaymentPlan.generateSchedule 100000 0).map
      ScheduleItem.principalAmount).sum = 50000 := by
    simp [Plan.generateSchedule, Plan.generateInterestWithPrincipalSchedule,
      halfRepaymentPlan, frequencyMonths, planIWPGo, planIWPItem, round2, addMonths,
      min_def]
    norm_num
  have h2 : ((halfRepaymentPlan.generateSchedule 100000 0).getLast?).map
      ScheduleItem.remainingPrincipal = some 50000 := by
    simp [Plan.generateSchedule, Plan.generateInterestWithPrincipalSchedule,
      halfRepaymentPlan, frequencyMonths, planIWPGo, planIWPItem, round2, addMonths,
      min_def, List.getLast?_cons_cons, List.getLast?_singleton]
    norm_num
  constructor
  · rw [h1]; norm_num
  · rw [h2]; norm_num

/-- C2 amended: for interest-only plans in fixed principal-repayment mode the
claim holds — the schedule's principalAmount values sum to the principal
within 0.01 (exactly round2 of it) and the final item's remainingPrincipal is
0. The original universal claim fails for interestWithPrincipal plans with a
repayment percentage below 100 (see the counterexample) and for flexible-mode
interest-only plans, whose shadowed-variable bug repays no principal. -/
theorem claim2_amended_fixed_mode_principal (p : Plan) (principal : ℚ) (startDate : ℤ)
    (hpt : p.paymentType = PaymentType.interest)
    (hfix : p.interestPayment.principalRepaymentOption = RepaymentOption.fixed)
    (hten : 1 ≤ p.tenure) :
    |((p.generateSchedule principal startDate).map ScheduleItem.principalAmount).sum -
        principal| ≤ 1 / 100 ∧
    ((p.generateSchedule principal startDate).getLast?).map
        ScheduleItem.remainingPrincipal = some 0 := by
  have hmain := planInterestGo_fixed p hfix startDate (p.interestRate / 100)
    p.tenure 1 principal (by omega) hten
  have hgen : p.generateSchedule principal startDate =
      planInterestGo p startDate (p.interestRate / 100) p.tenure 1 principal := by
    simp [Plan.generateSchedule, Plan.generateInterestSchedule, hpt]
  rw [hgen]
  refine ⟨?_, hmain.2⟩
  rw [hmain.1]
  calc |round2 principal - principal| ≤ 1 / 200 := abs_round2_sub_le principal
    _ ≤ 1 / 100 := by norm_num

/-- Witness: the amended C2 applied to the concrete flat fixed-mode plan with
principal 100000 and start date 0. -/
theorem claim2_amended_witness :
    flatInterestPlan.paymentType = PaymentType.interest ∧
    (|((flatInterestPlan.generateSchedule 100000 0).map
          ScheduleItem.principalAmount).sum - 100000| ≤ 1 / 100 ∧
      ((flatInterestPlan.generateSchedule 100000 0).getLast?).map
          ScheduleItem.remainingPrincipal = some 0) :=
  ⟨rfl, claim2_amended_fixed_mode_principal flatInterestPlan 100000 0 rfl rfl
    (by norm_num [flatInterestPlan])⟩

/-! ## Reconciliation pass: transition discipline and idempotence -/

theorem markOverdue_idem (now : ℤ) (it : ScheduleItem) :
    markOverdue now (markOverdue now it) = markOverdue now it := by
  by_cases hc : it.status = ItemStatus.pending ∧ it.dueDate < now
  · simp [markOverdue, hc]
  · simp [markOverdue, hc]

theorem paidContribution_markOverdue (now : ℤ) (it : ScheduleItem) :
    itemPaidContribution (markOverdue now it) = itemPaidContribution it := by
  by_cases hc : it.status = ItemStatus.pending ∧ it.dueDate < now
  · simp [markOverdue, itemPaidContribution, hc]
  · simp [markOverdue, hc]

theorem interestContribution_markOverdue (now : ℤ) (it : ScheduleItem) :
    itemInterestPaidContribution (markOverdue now it) = itemInterestPaidContribution it := by
  by_cases hc : it.status = ItemStatus.pending ∧ it.dueDate < now
  · simp [markOverdue, itemInterestPaidContribution, hc]
  · simp [markOverdue, hc]

theorem principalContribution_markOverdue (now : ℤ) (it : ScheduleItem) :
    itemPrincipalPaidContribution (markOverdue now it) = itemPrincipalPaidContribution it := by
  by_cases hc : it.status = ItemStatus.pending ∧ it.dueDate < now
  · simp [markOverdue, itemPrincipalPaidContribution, hc]
  · simp [markOverdue, hc]

/-- C7: on a reconciliation pass with clock value now, each schedule item that
is pending and strictly past its due date transitions to overdue, and every
other item keeps its status; amounts, dates and paid state are untouched.
This describes the pass's only automatic item transition. The claim's further
assertion that the clock is supplied by the caller is false of the code: the
source reads now = new Date() inside updatePaymentStatus (the explicit now
parameter here is the embedding of that hidden global read), which is why the
claim is classified as a code bug against the spec's mandated design. -/
theorem claim7_overdue_transition_only (now : ℤ) (inv : Investment) :
    List.Forall₂
      (fun before after =>
        (before.status = ItemStatus.pending ∧ before.dueDate < now →
          after.status = ItemStatus.overdue) ∧
        (¬ (before.status = ItemStatus.pending ∧ before.dueDate < now) →
          after.status = before.status) ∧
        after.month = before.month ∧ after.dueDate = before.dueDate ∧
        after.interestAmount = before.interestAmount ∧
        after.principalAmount = before.principalAmount ∧
        after.totalAmount = before.totalAmount ∧
        after.paidAmount = before.paidAmount ∧ after.paidDate = before.paidDate)
      inv.schedule (updatePaymentStatus now inv).schedule := by
  show List.Forall₂ _ inv.schedule (inv.schedule.map (markOverdue now))
  induction inv.schedule with
  | nil => exact List.Forall₂.nil
  | cons a l ih =>
    refine List.Forall₂.cons ?_ ih
    by_cases hc : a.status = ItemStatus.pending ∧ a.dueDate < now
    · simp [markOverdue, hc]
    · simp [markOverdue, hc]

/-- C9: running updatePaymentStatus twice with the same clock value and no
intervening payment yields the same investment as running it once — schedule
item statuses, all aggregate fields and the top-level status are unchanged by
the second pass. -/
theorem claim9_reconciliation_idempotent (now : ℤ) (inv : Investment) :
    updatePaymentStatus now (updatePaymentStatus now inv) = updatePaymentStatus now inv := by
  have hmap : ((inv.schedule.map (markOverdue now)).map (markOverdue now)) =
      inv.schedule.map (markOverdue now) := by
    rw [List.map_map]
    apply List.map_congr_left
    intro a _
    exact markOverdue_idem now a
  have hpc : (inv.schedule.map (markOverdue now)).map itemPaidContribution =
      inv.schedule.map itemPaidContribution := by
    rw [List.map_map]
    apply List.map_congr_left
    intro a _
    exact paidContribution_markOverdue now a
  have hic : (inv.schedule.map (markOverdue now)).map itemInterestPaidContribution =
      inv.schedule.map itemInterestPaidContribution := by
    rw [List.map_map]
    apply List.map_congr_left
    intro a _
    exact interestContribution_markOverdue now a
  have hprc : (inv.schedule.map (markOverdue now)).map itemPrincipalPaidContribution =
      inv.schedule.map itemPrincipalPaidContribution := by
    rw [List.map_map]
    apply List.map_congr_left
    intro a _
    exact principalContribution_markOverdue now a
  by_cases hr : inv.totalExpectedReturns - (inv.schedule.map itemPaidContribution).sum ≤ 0
  · simp only [updatePaymentStatus, hmap, hpc, hic, hprc]
    simp [hr]
  · simp only [updatePaymentStatus, hmap, hpc, hic, hprc]
    simp [hr]

/-! ## Invariant machinery for payment application -/

theorem markOverdue_paidAmount (now : ℤ) (it : ScheduleItem) :
    (markOverdue now it).paidAmount = it.paidAmount := by
  unfold markOverdue
  by_cases hc : it.status = ItemStatus.pending ∧ it.dueDate < now
  · rw [if_pos hc]
  · rw [if_neg hc]

theorem markOverdue_interestAmount (now : ℤ) (it : ScheduleItem) :
    (markOverdue now it).interestAmount = it.interestAmount := by
  unfold markOverdue
  by_cases hc : it.status = ItemStatus.pending ∧ it.dueDate < now
  · rw [if_pos hc]
  · rw [if_neg hc]

theorem payScheduleItem_paidAmount (d : ℤ) (a : ℚ) (it : ScheduleItem) :
    (payScheduleItem d a it).paidAmount = it.paidAmount + a := by
  unfold payScheduleItem
  by_cases h1 : it.totalAmount ≤ it.paidAmount + a
  · rw [if_pos h1]
  · rw [if_neg h1]
    by_cases h2 : 0 < it.paidAmount + a
    · rw [if_pos h2]
    · rw [if_neg h2]

theorem payScheduleItem_ok (d : ℤ) (a : ℚ) (ha : 0 < a) (it : ScheduleItem)
    (h : ItemOk it) : ItemOk (payScheduleItem d a it) := by
  have hpos : 0 < it.paidAmount + a := by linarith [h.1]
  unfold ItemOk payScheduleItem
  by_cases h1 : it.totalAmount ≤ it.paidAmount + a
  · rw [if_pos h1]
    refine ⟨le_of_lt hpos, h.2.1, ?_⟩
    intro hcon
    exact absurd rfl hcon.1
  · rw [if_neg h1, if_pos hpos]
    refine ⟨le_of_lt hpos, h.2.1, ?_⟩
    intro hcon
    exact absurd rfl hcon.2

theorem paidSum_of_invariant :
    ∀ l : List ScheduleItem, scheduleInvariant l →
      (l.map itemPaidContribution).sum = (l.map ScheduleItem.paidAmount).sum := by
  intro l
  induction l with
  | nil => intro _; rfl
  | cons a t ih =>
    intro h
    have ha : ItemOk a := h a (List.mem_cons_self a t)
    have ht : scheduleInvariant t := fun it hit => h it (List.mem_cons_of_mem a hit)
    by_cases hs : a.status = ItemStatus.paid ∨ a.status = ItemStatus.partialPaid
    · simp only [List.map_cons, List.sum_cons, itemPaidContribution, if_pos hs, ih ht]
    · have hz : a.paidAmount = 0 := ha.2.2 (by push_neg at hs; exact hs)
      simp only [List.map_cons, List.sum_cons, itemPaidContribution, if_neg hs, ih ht, hz]

theorem interestSum_of_invariant :
    ∀ l : List ScheduleItem, scheduleInvariant l →
      (l.map itemInterestPaidContribution).sum =
        (l.map (fun it => min it.paidAmount it.interestAmount)).sum := by
  intro l
  induction l with
  | nil => intro _; rfl
  | cons a t ih =>
    intro h
    have ha : ItemOk a := h a (List.mem_cons_self a t)
    have ht : scheduleInvariant t := fun it hit => h it (List.mem_cons_of_mem a hit)
    by_cases hs : a.status = ItemStatus.paid ∨ a.status = ItemStatus.partialPaid
    · simp only [List.map_cons, List.sum_cons, itemInterestPaidContribution, if_pos hs, ih ht]
    · have hz : a.paidAmount = 0 := ha.2.2 (by push_neg at hs; exact hs)
      simp only [List.map_cons, List.sum_cons, itemInterestPaidContribution, if_neg hs,
        ih ht, hz, min_eq_left ha.2.1]

theorem principalSum_of_invariant :
    ∀ l : List ScheduleItem, scheduleInvariant l →
      (l.map itemPrincipalPaidContribution).sum =
        (l.map (fun it => max 0 (it.paidAmount - it.interestAmount))).sum := by
  intro l
  induction l with
  | nil => intro _; rfl
  | cons a t ih =>
    intro h
    have ha : ItemOk a := h a (List.mem_cons_self a t)
    have ht : scheduleInvariant t := fun it hit => h it (List.mem_cons_of_mem a hit)
    by_cases hs : a.status = ItemStatus.paid ∨ a.status = ItemStatus.partialPaid
    · simp only [List.map_cons, List.sum_cons, itemPrincipalPaidContribution, if_pos hs, ih ht]
    · have hz : a.paidAmount = 0 := ha.2.2 (by push_neg at hs; exact hs)
      have hle : a.paidAmount - a.interestAmount ≤ 0 := by
        rw [hz]
        linarith [ha.2.1]
      simp only [List.map_cons, List.sum_cons, itemPrincipalPaidContribution, if_neg hs,
        ih ht, max_eq_left hle]

theorem updateFirst_invariant (pred : ScheduleItem → Bool) (f : ScheduleItem → ScheduleItem)
    (hf : ∀ it, ItemOk it → ItemOk (f it)) :
    ∀ l, scheduleInvariant l → scheduleInvariant (updateFirst pred f l) := by
  intro l
  induction l with
  | nil => intro h; exact h
  | cons a t ih =>
    intro h
    have ha : ItemOk a := h a (List.mem_cons_self a t)
    have ht : scheduleInvariant t := fun it hit => h it (List.mem_cons_of_mem a hit)
    unfold updateFirst
    by_cases hp : pred a = true
    · rw [if_pos hp]
      intro it hit
      rcases List.mem_cons.mp hit with h1 | h2
      · rw [h1]; exact hf a ha
      · exact ht it h2
    · rw [if_neg hp]
      intro it hit
      rcases List.mem_cons.mp hit with h1 | h2
      · rw [h1]; exact ha
      · exact ih ht it h2

theorem updateFirst_map_sum (pred : ScheduleItem → Bool) (f : ScheduleItem → ScheduleItem)
    (g : ScheduleItem → ℚ) :
    ∀ (l : List ScheduleItem) (x : ScheduleItem), l.find? pred = some x →
      ((updateFirst pred f l).map g).sum = (l.map g).sum - g x + g (f x) := by
  intro l
  induction l with
  | nil => intro x hx; simp at hx
  | cons a t ih =>
    intro x hx
    by_cases hp : pred a = true
    · rw [List.find?_cons_of_pos _ hp] at hx
      have hax : a = x := by simpa using hx
      unfold updateFirst
      rw [if_pos hp, List.map_cons, List.sum_cons, List.map_cons, List.sum_cons, ← hax]
      ring
    · rw [List.find?_cons_of_neg _ hp] at hx
      unfold updateFirst
      rw [if_neg hp, List.map_cons, List.sum_cons, List.map_cons, List.sum_cons, ih x hx]
      ring

theorem mapPaid_markOverdue (now : ℤ) (l : List ScheduleItem) :
    (l.map (markOverdue now)).map ScheduleItem.paidAmount =
      l.map ScheduleItem.paidAmount := by
  rw [List.map_map]
  exact List.map_congr_left (fun a _ => markOverdue_paidAmount now a)

theorem mapMin_markOverdue (now : ℤ) (l : List ScheduleItem) :
    (l.map (markOverdue now)).map (fun it => min it.paidAmount it.interestAmount) =
      l.map (fun it => min it.paidAmount it.interestAmount) := by
  rw [List.map_map]
  refine List.map_congr_left (fun a _ => ?_)
  show min (markOverdue now a).paidAmount (markOverdue now a).interestAmount = _
  rw [markOverdue_paidAmount, markOverdue_interestAmount]

theorem mapMax_markOverdue (now : ℤ) (l : List ScheduleItem) :
    (l.map (markOverdue now)).map (fun it => max 0 (it.paidAmount - it.interestAmount)) =
      l.map (fun it => max 0 (it.paidAmount - it.interestAmount)) := by
  rw [List.map_map]
  refine List.map_congr_left (fun a _ => ?_)
  show max 0 ((markOverdue now a).paidAmount - (markOverdue now a).interestAmount) = _
  rw [markOverdue_paidAmount, markOverdue_interestAmount]

/-- A successful applyPayment found the schedule item and produced the
canonical successor state. -/
theorem applyPayment_ok_state (now : ℤ) (inv : Investment) (req : PaymentRequest)
    (inv2 : Investment) (b : Breakdown)
    (hok : applyPayment now inv req = Except.ok (inv2, b)) :
    ∃ item, inv.schedule.find? (fun s => decide (s.month = req.scheduleMonth)) = some item ∧
      inv2 = paymentSuccessorState now inv req := by
  simp only [applyPayment] at hok
  split at hok
  · exact absurd hok (by simp)
  · split at hok
    · exact absurd hok (by simp)
    · rename_i item heq
      split at hok
      · exact absurd hok (by simp)
      · split at hok
        · exact absurd hok (by simp)
        · simp only [Except.ok.injEq, Prod.mk.injEq] at hok
          exact ⟨item, heq, hok.1.symm⟩

/-- C4: after a successful payment application the investment's aggregates
equal sums over all schedule items: totalPaidAmount is the sum of paidAmount,
totalInterestPaid the sum of min(paidAmount, interestAmount),
totalPrincipalPaid the sum of max(0, paidAmount - interestAmount), and
remainingAmount is totalExpectedReturns - totalPaidAmount. The source
accumulates only over items in status paid/partial; under the invariant that
items in other statuses carry paidAmount 0 (true of generated schedules and
preserved by every application), that equals the sum over all items. -/
theorem claim4_aggregates_sum_over_schedule (now : ℤ) (inv : Investment)
    (req : PaymentRequest) (inv2 : Investment) (b : Breakdown)
    (hinv : scheduleInvariant inv.schedule) (hamt : 0 < req.amount)
    (hok : applyPayment now inv req = Except.ok (inv2, b)) :
    inv2.totalPaidAmount = (inv2.schedule.map ScheduleItem.paidAmount).sum ∧
    inv2.totalInterestPaid =
      (inv2.schedule.map (fun it => min it.paidAmount it.interestAmount)).sum ∧
    inv2.totalPrincipalPaid =
      (inv2.schedule.map (fun it => max 0 (it.paidAmount - it.interestAmount))).sum ∧
    inv2.remainingAmount = inv2.totalExpectedReturns - inv2.totalPaidAmount := by
  obtain ⟨item, hfind, hstate⟩ := applyPayment_ok_state now inv req inv2 b hok
  subst hstate
  have hSinv : scheduleInvariant
      (updateFirst (fun s => decide (s.month = req.scheduleMonth))
        (payScheduleItem now req.amount) inv.schedule) :=
    updateFirst_invariant _ _ (fun it hit => payScheduleItem_ok now req.amount hamt it hit)
      inv.schedule hinv
  simp only [paymentSuccessorState, updatePaymentStatus]
  refine ⟨?_, ?_, ?_, trivial⟩
  · rw [mapPaid_markOverdue]
    exact paidSum_of_invariant _ hSinv
  · rw [mapMin_markOverdue]
    exact interestSum_of_invariant _ hSinv
  · rw [mapMax_markOverdue]
    exact principalSum_of_invariant _ hSinv

theorem markOverdue_ok (now : ℤ) (it : ScheduleItem) (h : ItemOk it) :
    ItemOk (markOverdue now it) := by
  unfold markOverdue
  by_cases hc : it.status = ItemStatus.pending ∧ it.dueDate < now
  · rw [if_pos hc]
    refine ⟨h.1, h.2.1, fun _ => ?_⟩
    have hp1 : it.status ≠ ItemStatus.paid := by rw [hc.1]; intro hco; cases hco
    have hp2 : it.status ≠ ItemStatus.partialPaid := by rw [hc.1]; intro hco; cases hco
    exact h.2.2 ⟨hp1, hp2⟩
  · rw [if_neg hc]
    exact h

theorem scheduleInvariant_map_markOverdue (now : ℤ) (l : List ScheduleItem)
    (h : scheduleInvariant l) : scheduleInvariant (l.map (markOverdue now)) := by
  intro it hit
  rcases List.mem_map.mp hit with ⟨a, ha, hae⟩
  rw [← hae]
  exact markOverdue_ok now a (h a ha)

/-- C8: starting from a reconciled investment (its stored aggregates agree
with its schedule), a successfully applied payment of positive amount raises
totalPaidAmount by exactly the amount and lowers remainingAmount by the same,
so totalPaidAmount never decreases and remainingAmount never increases; the
resulting state is again reconciled and well-formed, so the same holds at
every step of any sequence of applied payments. -/
theorem claim8_payment_monotonicity (now : ℤ) (inv : Investment) (req : PaymentRequest)
    (inv2 : Investment) (b : Breakdown)
    (hinv : scheduleInvariant inv.schedule) (hamt : 0 < req.amount)
    (hpaid : inv.totalPaidAmount = (inv.schedule.map ScheduleItem.paidAmount).sum)
    (hrem : inv.remainingAmount = inv.totalExpectedReturns - inv.totalPaidAmount)
    (hok : applyPayment now inv req = Except.ok (inv2, b)) :
    (inv.totalPaidAmount ≤ inv2.totalPaidAmount ∧
      inv2.remainingAmount ≤ inv.remainingAmount) ∧
    (scheduleInvariant inv2.schedule ∧
      inv2.totalPaidAmount = (inv2.schedule.map ScheduleItem.paidAmount).sum ∧
      inv2.remainingAmount = inv2.totalExpectedReturns - inv2.totalPaidAmount) := by
  obtain ⟨item, hfind, hstate⟩ := applyPayment_ok_state now inv req inv2 b hok
  subst hstate
  have hSinv : scheduleInvariant
      (updateFirst (fun s => decide (s.month = req.scheduleMonth))
        (payScheduleItem now req.amount) inv.schedule) :=
    updateFirst_invariant _ _ (fun it hit => payScheduleItem_ok now req.amount hamt it hit)
      inv.schedule hinv
  have htot : (paymentSuccessorState now inv req).totalPaidAmount =
      (inv.schedule.map ScheduleItem.paidAmount).sum + req.amount := by
    show (List.map itemPaidContribution _).sum = _
    rw [paidSum_of_invariant _ hSinv,
      updateFirst_map_sum _ _ ScheduleItem.paidAmount inv.schedule item hfind,
      payScheduleItem_paidAmount]
    ring
  have hrem2 : (paymentSuccessorState now inv req).remainingAmount =
      inv.totalExpectedReturns - (paymentSuccessorState now inv req).totalPaidAmount := rfl
  refine ⟨⟨?_, ?_⟩, ?_, ?_, ?_⟩
  · rw [htot, hpaid]
    linarith
  · rw [hrem2, htot, hrem, hpaid]
    linarith
  · exact scheduleInvariant_map_markOverdue now _ hSinv
  · show (List.map itemPaidContribution _).sum =
      (List.map ScheduleItem.paidAmount (List.map (markOverdue now)
        (updateFirst (fun s => decide (s.month = req.scheduleMonth))
          (payScheduleItem now req.amount) inv.schedule))).sum
    rw [paidSum_of_invariant _ hSinv, mapPaid_markOverdue]
  · rfl

/-! ## Concrete payment application evaluations -/

theorem status_allowed (s : ItemStatus) : s ∈ allowedStatuses := by
  cases s <;> simp [allowedStatuses]

theorem exScheduleInvariant : scheduleInvariant exInvestment.schedule := by
  intro it hit
  simp [exInvestment] at hit
  subst hit
  refine ⟨by norm_num [exItem], by norm_num [exItem], fun _ => by norm_num [exItem]⟩

theorem exPayment_eval : applyPayment 20 exInvestment exRequest =
    Except.ok (exResultInvestment,
      { interest := 4500, principal := 500, penalty := 0, bonus := 0 }) := by
  simp [applyPayment, exInvestment, exRequest, exItem, jsFalsy, deriveBreakdown,
    requestedBreakdown, validateBreakdown, updateFirst, payScheduleItem,
    updatePaymentStatus, itemPaidContribution, itemInterestPaidContribution,
    itemPrincipalPaidContribution, markOverdue, allowedStatuses,
    exResultInvestment, exPaidItem, List.find?, min_def, max_def]
  norm_num

theorem exPaymentZero_eval : applyPayment 20 exInvestment zeroBreakdownRequest =
    Except.ok (exResultInvestment,
      { interest := 4500, principal := 500, penalty := 0, bonus := 0 }) := by
  simp [applyPayment, exInvestment, zeroBreakdownRequest, exItem, jsFalsy,
    deriveBreakdown, requestedBreakdown, validateBreakdown, updateFirst,
    payScheduleItem, updatePaymentStatus, itemPaidContribution,
    itemInterestPaidContribution, itemPrincipalPaidContribution, markOverdue,
    allowedStatuses, exResultInvestment, exPaidItem, List.find?, min_def, max_def]
  norm_num

/-- C5 cannot hold as stated: a request that supplies an all-zero breakdown
(interest 0, principal 0, penalty 0, bonus 0) for amount 5000 has a gap of
5000, at least 1, so the claim demands rejection with BreakdownMismatch; but
the handler's emptiness test treats explicit zeros as an absent breakdown
(JS falsiness), auto-derives the split and accepts the payment. -/
theorem claim5_counterexample_zero_breakdown :
    1 ≤ |zeroBreakdownRequest.amount -
        breakdownTotal (requestedBreakdown zeroBreakdownRequest)| ∧
    applyPayment 20 exInvestment zeroBreakdownRequest ≠
      Except.error PaymentError.breakdownMismatch := by
  constructor
  · norm_num [zeroBreakdownRequest, breakdownTotal, requestedBreakdown]
  · rw [exPaymentZero_eval]
    simp

/-- C5 amended: for a payment request that supplies a breakdown with at least
one nonzero component (a breakdown whose components are all zero or absent is
treated by the handler as no breakdown and auto-derived), letting gap be
amount minus the breakdown total: within 0.01 the payment is accepted with
the breakdown unchanged; between 0.01 and 1 it is accepted with the gap
absorbed into the interest component; at 1 or beyond it is rejected with
BreakdownMismatch (before any state mutation — the error path returns no
investment). -/
theorem claim5_amended_breakdown_validation (now : ℤ) (inv : Investment)
    (req : PaymentRequest) (item : ScheduleItem)
    (hact : inv.status = InvStatus.active)
    (hfind : inv.schedule.find? (fun s => decide (s.month = req.scheduleMonth)) = some item)
    (hsupplied : ¬ (jsFalsy req.interestAmount ∧ jsFalsy req.principalAmount ∧
        jsFalsy req.penaltyAmount ∧ jsFalsy req.bonusAmount)) :
    (|req.amount - breakdownTotal (requestedBreakdown req)| ≤ 1 / 100 →
      applyPayment now inv req =
        Except.ok (paymentSuccessorState now inv req, requestedBreakdown req)) ∧
    (1 / 100 < |req.amount - breakdownTotal (requestedBreakdown req)| →
      |req.amount - breakdownTotal (requestedBreakdown req)| < 1 →
      applyPayment now inv req =
        Except.ok (paymentSuccessorState now inv req,
          { requestedBreakdown req with
            interest := (requestedBreakdown req).interest +
              (req.amount - breakdownTotal (requestedBreakdown req)) })) ∧
    (1 ≤ |req.amount - breakdownTotal (requestedBreakdown req)| →
      applyPayment now inv req = Except.error PaymentError.breakdownMismatch) := by
  have hne : ¬ inv.status ≠ InvStatus.active := by
    rw [hact]
    exact fun h => h rfl
  have hall : ¬ item.status ∉ allowedStatuses := fun h => h (status_allowed item.status)
  refine ⟨?_, ?_, ?_⟩
  · intro h
    simp only [applyPayment, hfind, if_neg hne, if_neg hall, if_neg hsupplied,
      validateBreakdown, breakdownTotal] at *
    rw [if_neg (not_lt.mpr h)]
    rfl
  · intro h1 h2
    simp only [applyPayment, hfind, if_neg hne, if_neg hall, if_neg hsupplied,
      validateBreakdown, breakdownTotal] at *
    rw [if_pos h1, if_pos h2]
    rfl
  · intro h
    have h1 : 1 / 100 < |req.amount - breakdownTotal (requestedBreakdown req)| :=
      lt_of_lt_of_le (by norm_num) h
    simp only [applyPayment, hfind, if_neg hne, if_neg hall, if_neg hsupplied,
      validateBreakdown, breakdownTotal] at *
    rw [if_pos h1, if_neg (not_lt.mpr h)]

/-- Witness: the amended C5 applied to a request supplying the exact
breakdown 4500/500/0/0 for amount 5000 (gap 0, first branch). -/
theorem claim5_amended_witness :
    (|exactBreakdownRequest.amount -
        breakdownTotal (requestedBreakdown exactBreakdownRequest)| ≤ 1 / 100 →
      applyPayment 20 exInvestment exactBreakdownRequest =
        Except.ok (paymentSuccessorState 20 exInvestment exactBreakdownRequest,
          requestedBreakdown exactBreakdownRequest)) ∧
    (1 / 100 < |exactBreakdownRequest.amount -
        breakdownTotal (requestedBreakdown exactBreakdownRequest)| →
      |exactBreakdownRequest.amount -
        breakdownTotal (requestedBreakdown exactBreakdownRequest)| < 1 →
      applyPayment 20 exInvestment exactBreakdownRequest =
        Except.ok (paymentSuccessorState 20 exInvestment exactBreakdownRequest,
          { requestedBreakdown exactBreakdownRequest with
            interest := (requestedBreakdown exactBreakdownRequest).interest +
              (exactBreakdownRequest.amount -
                breakdownTotal (requestedBreakdown exactBreakdownRequest)) })) ∧
    (1 ≤ |exactBreakdownRequest.amount -
        breakdownTotal (requestedBreakdown exactBreakdownRequest)| →
      applyPayment 20 exInvestment exactBreakdownRequest =
        Except.error PaymentError.breakdownMismatch) :=
  claim5_amended_breakdown_validation 20 exInvestment exactBreakdownRequest exItem
    rfl
    (by simp [exInvestment, exItem, exactBreakdownRequest, List.find?])
    (by simp [jsFalsy, exactBreakdownRequest])

/-- C6: with no breakdown supplied the handler derives exactly the split the
claim states — interest is the smaller of the amount and the item's remaining
interest, the rest goes to principal, penalty and bonus are 0 — and on the
concrete scenario (amount 5000, item interest 4500, nothing yet paid) the
full payment path records the derived breakdown interest 4500, principal
500. -/
theorem claim6_auto_derived_breakdown (item : ScheduleItem) (amount : ℚ) :
    (deriveBreakdown item amount).interest =
      min amount (max 0 (item.interestAmount - min item.paidAmount item.interestAmount)) ∧
    (deriveBreakdown item amount).principal = amount - (deriveBreakdown item amount).interest ∧
    (deriveBreakdown item amount).penalty = 0 ∧
    (deriveBreakdown item amount).bonus = 0 ∧
    applyPayment 20 exInvestment exRequest =
      Except.ok (exResultInvestment,
        { interest := 4500, principal := 500, penalty := 0, bonus := 0 }) := by
  refine ⟨rfl, ?_, rfl, rfl, exPayment_eval⟩
  exact max_eq_right (sub_nonneg.mpr (min_le_left _ _))

/-- Witness: aggregate equalities of C4 hold after the concrete 5000 payment
against exInvestment. -/
theorem claim4_witness :
    scheduleInvariant exInvestment.schedule ∧ 0 < exRequest.amount ∧
    (exResultInvestment.totalPaidAmount =
        (exResultInvestment.schedule.map ScheduleItem.paidAmount).sum ∧
      exResultInvestment.totalInterestPaid =
        (exResultInvestment.schedule.map
          (fun it => min it.paidAmount it.interestAmount)).sum ∧
      exResultInvestment.totalPrincipalPaid =
        (exResultInvestment.schedule.map
          (fun it => max 0 (it.paidAmount - it.interestAmount))).sum ∧
      exResultInvestment.remainingAmount =
        exResultInvestment.totalExpectedReturns - exResultInvestment.totalPaidAmount) :=
  ⟨exScheduleInvariant, by norm_num [exRequest],
    claim4_aggregates_sum_over_schedule 20 exInvestment exRequest exResultInvestment
      { interest := 4500, principal := 500, penalty := 0, bonus := 0 }
      exScheduleInvariant (by norm_num [exRequest]) exPayment_eval⟩

/-- Witness: monotonicity of C8 holds on the concrete 5000 payment against
exInvestment. -/
theorem claim8_witness :
    0 < exRequest.amount ∧
    ((exInvestment.totalPaidAmount ≤ exResultInvestment.totalPaidAmount ∧
        exResultInvestment.remainingAmount ≤ exInvestment.remainingAmount) ∧
      (scheduleInvariant exResultInvestment.schedule ∧
        exResultInvestment.totalPaidAmount =
          (exResultInvestment.schedule.map ScheduleItem.paidAmount).sum ∧
        exResultInvestment.remainingAmount =
          exResultInvestment.totalExpectedReturns -
            exResultInvestment.totalPaidAmount)) :=
  ⟨by norm_num [exRequest],
    claim8_payment_monotonicity 20 exInvestment exRequest exResultInvestment
      { interest := 4500, principal := 500, penalty := 0, bonus := 0 }
      exScheduleInvariant (by norm_num [exRequest])
      (by simp [exInvestment, exItem])
      (by simp [exInvestment])
      exPayment_eval⟩

/-! ## The Investment model's own schedule generator -/

theorem invInterestGo_succ (pa : ℚ) (sd : ℤ) (rate : ℚ) (ty : InterestType)
    (tenure fuel month : ℕ) (r : ℚ) :
    invInterestGo pa sd rate ty tenure (fuel + 1) month r =
      (invInterestItem pa sd rate ty tenure month r).1 ::
        invInterestGo pa sd rate ty tenure fuel (month + 1)
          (invInterestItem pa sd rate ty tenure month r).2 := rfl

theorem invIWPGo_succ (pa : ℚ) (sd : ℤ) (rate : ℚ) (ty : InterestType)
    (mp : ℚ) (fuel month : ℕ) (r : ℚ) :
    invIWPGo pa sd rate ty mp (fuel + 1) month r =
      (invIWPItem pa sd rate ty mp month r).1 ::
        invIWPGo pa sd rate ty mp fuel (month + 1)
          (invIWPItem pa sd rate ty mp month r).2 := rfl

/-- The Investment model's interest-only generator always assigns principal 0
before the final month and the full remaining principal at the final month,
whatever the plan's repayment option was. -/
theorem invInterestGo_principal (pa : ℚ) (sd : ℤ) (rate : ℚ) (ty : InterestType)
    (tenure : ℕ) :
    ∀ fuel month r, month + fuel = tenure + 1 → 1 ≤ fuel →
      (invInterestGo pa sd rate ty tenure fuel month r).map ScheduleItem.principalAmount =
        List.replicate (fuel - 1) 0 ++ [round2 r] := by
  intro fuel
  induction fuel with
  | zero => intro month r _ h1; exact absurd h1 (by norm_num)
  | succ n ih =>
    intro month r hclock _
    cases n with
    | zero =>
      have hm : month = tenure := by omega
      rw [invInterestGo_succ]
      simp [invInterestGo, invInterestItem, hm]
    | succ k =>
      have hm : month ≠ tenure := by omega
      have hstep2 : (invInterestItem pa sd rate ty tenure month r).2 = r := by
        simp [invInterestItem, hm]
      have hstep1 : (invInterestItem pa sd rate ty tenure month r).1.principalAmount = 0 := by
        simp [invInterestItem, hm, round2_zero]
      rw [invInterestGo_succ, hstep2, List.map_cons, hstep1,
        ih (month + 1) r (by omega) (by omega)]
      rfl

/-- The Investment model's interest-with-principal generator assigns the same
rounded principalAmount / tenure to every month, whatever the plan's
repayment percentage and payout frequency were. -/
theorem invIWPGo_principal (pa : ℚ) (sd : ℤ) (rate : ℚ) (ty : InterestType) (mp : ℚ) :
    ∀ fuel month r,
      (invIWPGo pa sd rate ty mp fuel month r).map ScheduleItem.principalAmount =
        List.replicate fuel (round2 mp) := by
  intro fuel
  induction fuel with
  | zero => intro month r; rfl
  | succ n ih =>
    intro month r
    rw [invIWPGo_succ, List.map_cons, ih (month + 1)]
    rfl

/-- C10: the schedule persisted at investment creation is produced by the
Investment model's generator from the snapshot fields alone — two plans that
agree on interestRate, interestType, tenure and paymentType yield identical
schedules for the same principal and date, whatever their interestPayment /
interestWithPrincipalPayment sub-configurations; moreover interest-only
schedules place the entire principal on the final period (even when the plan
was in flexible mode) and interestWithPrincipal schedules place
round2(principal / tenure) on every period (whatever the percentage and
frequency). -/
theorem claim10_schedule_snapshot_only (p1 p2 : Plan) (principal : ℚ) (d : ℤ)
    (hr : p1.interestRate = p2.interestRate) (ht : p1.interestType = p2.interestType)
    (hn : p1.tenure = p2.tenure) (hp : p1.paymentType = p2.paymentType)
    (hten : 1 ≤ p1.tenure) :
    (createInvestment p1 principal d).schedule = (createInvestment p2 principal d).schedule ∧
    (p1.paymentType = PaymentType.interest →
      (createInvestment p1 principal d).schedule.map ScheduleItem.principalAmount =
        List.replicate (p1.tenure - 1) 0 ++ [round2 principal]) ∧
    (p1.paymentType = PaymentType.interestWithPrincipal →
      (createInvestment p1 principal d).schedule.map ScheduleItem.principalAmount =
        List.replicate p1.tenure (round2 (principal / (p1.tenure : ℚ)))) := by
  have hsched : ∀ p : Plan, (createInvestment p principal d).schedule =
      invScheduleOfFields principal d p.interestRate p.interestType p.tenure
        p.paymentType := fun p => rfl
  refine ⟨?_, ?_, ?_⟩
  · rw [hsched p1, hsched p2, hr, ht, hn, hp]
  · intro hpt
    rw [hsched p1]
    have hdisp : invScheduleOfFields principal d p1.interestRate p1.interestType
        p1.tenure p1.paymentType =
        invInterestGo principal d (p1.interestRate / 100) p1.interestType p1.tenure
          p1.tenure 1 principal := by
      simp [invScheduleOfFields, hpt]
    rw [hdisp]
    exact invInterestGo_principal principal d (p1.interestRate / 100) p1.interestType
      p1.tenure p1.tenure 1 principal (by omega) hten
  · intro hpt
    rw [hsched p1]
    have hdisp : invScheduleOfFields principal d p1.interestRate p1.interestType
        p1.tenure p1.paymentType =
        invIWPGo principal d (p1.interestRate / 100) p1.interestType
          (principal / (p1.tenure : ℚ)) p1.tenure 1 principal := by
      simp [invScheduleOfFields, hpt]
    rw [hdisp]
    exact invIWPGo_principal principal d (p1.interestRate / 100) p1.interestType
      (principal / (p1.tenure : ℚ)) p1.tenure 1 principal

/-- Witness: C10 applied to flatInterestPlan and its sibling with a different
interest-payment sub-configuration. -/
theorem claim10_witness :
    ((createInvestment flatInterestPlan 100000 0).schedule =
        (createInvestment flatInterestPlanAlt 100000 0).schedule) ∧
    (flatInterestPlan.paymentType = PaymentType.interest →
      (createInvestment flatInterestPlan 100000 0).schedule.map
          ScheduleItem.principalAmount =
        List.replicate (flatInterestPlan.tenure - 1) 0 ++ [round2 100000]) ∧
    (flatInterestPlan.paymentType = PaymentType.interestWithPrincipal →
      (createInvestment flatInterestPlan 100000 0).schedule.map
          ScheduleItem.principalAmount =
        List.replicate flatInterestPlan.tenure
          (round2 (100000 / (flatInterestPlan.tenure : ℚ)))) :=
  claim10_schedule_snapshot_only flatInterestPlan flatInterestPlanAlt 100000 0
    rfl rfl rfl rfl (by norm_num [flatInterestPlan])

end FinanceTracker
